import Mathlib

/-!
# Verification of the workout-completion processing pipeline

Shallow embedding of the hevy-progressive-overloader pipeline:
title parsing, deload context construction with paginated reference
search, LLM response parsing, suggestion formatting, webhook intake,
and the reconciliation scheduler.  Definitions are translated from the
Rust sources under `src/`; external collaborators (the HTTP tracker
client, the LLM client, `serde_json`'s text-level parser, wall-clock
time) enter as explicit oracle parameters, mirroring the interfaces the
code calls.
-/

namespace HevyPipeline

/-! ## Character-level helpers

The Rust code works on UTF-8 `str` values.  Strings are modelled as
Lean `String`/`List Char`; byte indices are recovered through UTF-8
sizes where the code does byte arithmetic.  `\d` of the `regex` crate
is modelled as ASCII digits and case-insensitive literals as ASCII case
folding (all inputs the pipeline's titles use are ASCII). -/

/-- ASCII digit test, the digits accepted by `u32::parse` and the
`\d` class as exercised by the pipeline's titles. -/
def isAsciiDigitC (c : Char) : Bool :=
  48 ≤ c.toNat && c.toNat ≤ 57

/-- ASCII lower-casing used to model the `(?i)` flag on the literal
`week`/`day` patterns. -/
def toLowerAscii (c : Char) : Char :=
  if 65 ≤ c.toNat && c.toNat ≤ 90 then Char.ofNat (c.toNat + 32) else c

/-- The Unicode White_Space code points: the `\s` class of the `regex`
crate, `str::trim` and `split_whitespace`. -/
def isRustWs (c : Char) : Bool :=
  c.toNat ∈ [9, 10, 11, 12, 13, 32, 133, 160, 5760,
    8192, 8193, 8194, 8195, 8196, 8197, 8198, 8199, 8200, 8201, 8202,
    8232, 8233, 8239, 8287, 12288]

/-- Digits of a numeral read left to right as a natural number. -/
def digitsToNat (ds : List Char) : Nat :=
  ds.foldl (fun acc c => acc * 10 + (c.toNat - 48)) 0

/-- `str::parse::<u32>` on a non-empty all-digit capture: the numeral's
value when it fits in 32 bits, failure on overflow. -/
def parseU32 (ds : List Char) : Option Nat :=
  if ds.isEmpty then none
  else if digitsToNat ds < 2 ^ 32 then some (digitsToNat ds) else none

/-- Match of `<kw>\s*(\d+)` anchored at the start of `s`
(case-insensitive keyword); returns the digits of capture group 1.
`\s*` and `\d+` are over disjoint character classes, so the greedy
scan is exact. -/
def matchTokenAt (kw : List Char) (s : List Char) : Option (List Char) :=
  if (s.take kw.length).map toLowerAscii = kw then
    let digits := ((s.drop kw.length).dropWhile isRustWs).takeWhile isAsciiDigitC
    if digits.isEmpty then none else some digits
  else none

/-- Leftmost match of `<kw>\s*(\d+)` in a title: `Regex::captures`
followed by `.get(1)`. -/
def findTokenNum (kw : List Char) : List Char → Option (List Char)
  | [] => none
  | s@(_ :: rest) =>
    match matchTokenAt kw s with
    | some d => some d
    | none => findTokenNum kw rest

/-- `week_regex.captures(title).is_some()`. -/
def hasWeekMatch (title : String) : Bool :=
  (findTokenNum ['w', 'e', 'e', 'k'] title.toList).isSome

/-- `day_regex.captures(title).is_some()`. -/
def hasDayMatch (title : String) : Bool :=
  (findTokenNum ['d', 'a', 'y'] title.toList).isSome

/-- `extract_week_from_title` (src/services/ai_parser.rs): the first
`week\s*(\d+)` capture parsed as `u32`. -/
def extractWeekFromTitle (title : String) : Option Nat :=
  (findTokenNum ['w', 'e', 'e', 'k'] title.toList).bind parseU32

/-- `DeloadCalculator::extract_day_from_title`
(src/services/deload.rs): the first `day\s*(\d+)` capture parsed as
`u32`. -/
def extractDayFromTitle (title : String) : Option Nat :=
  (findTokenNum ['d', 'a', 'y'] title.toList).bind parseU32

/-- `extract_week_and_day` (src/services/ai_parser.rs): both tokens,
each defaulting to 1 when absent or unparseable. -/
def extractWeekAndDay (title : String) : Nat × Nat :=
  ((extractWeekFromTitle title).getD 1, (extractDayFromTitle title).getD 1)

/-- `determine_routine_title_format` (src/services/ai_parser.rs):
the next routine title derived from the current workout title.  The
day-only branch's `current_day + 1` is a `u32` addition and wraps
modulo `2^32` (release semantics; a debug build panics on the
overflow), so at `current_day = u32::MAX` it produces `"Day 0"`.  The
week increment happens only under the `current_week < 8` guard and
cannot overflow. -/
def determineRoutineTitleFormat (title : String) : String :=
  let hasWeek := hasWeekMatch title
  let hasDay := hasDayMatch title
  let currentWeek := (extractWeekAndDay title).1
  let currentDay := (extractWeekAndDay title).2
  let nextWeek := if currentWeek ≥ 8 then 1 else currentWeek + 1
  match hasDay, hasWeek with
  | true, true => "Day " ++ toString currentDay ++ " - Week " ++ toString nextWeek
  | true, false => "Day " ++ toString ((currentDay + 1) % 2 ^ 32)
  | false, true => "Week " ++ toString nextWeek
  | false, false => "Week 2"

example : determineRoutineTitleFormat "Day 1 - Week 2" = "Day 1 - Week 3" := by decide
example : determineRoutineTitleFormat "Day4 -week 2" = "Day 4 - Week 3" := by decide
example : determineRoutineTitleFormat "Day 1" = "Day 2" := by decide
example : determineRoutineTitleFormat "Week 2" = "Week 3" := by decide
example : determineRoutineTitleFormat "Push Day" = "Week 2" := by decide
example : determineRoutineTitleFormat "Chest Press" = "Week 2" := by decide
example : determineRoutineTitleFormat "Day 1 - Week 8" = "Day 1 - Week 1" := by decide
example : determineRoutineTitleFormat "Week 10" = "Week 1" := by decide
example : extractWeekAndDay "Day 3 - Week 5" = (5, 3) := by decide

/-! ## Data model (src/clients/models)

`f32` fields (`weight_kg`, `rpe`, `custom_metric`) are modelled as
rationals: every `f32` is a rational and the operations the pipeline
performs on them (`fract`, comparisons against `f32::EPSILON`) are
exact at the values the claims touch. -/

/-- `ExerciseSet` (src/clients/models/common.rs). -/
structure ExerciseSet where
  index : Nat
  setType : String
  weightKg : Option ℚ
  reps : Option Nat
  distanceMeters : Option Nat
  durationSeconds : Option Nat
  rpe : Option ℚ
  customMetric : Option ℚ
deriving Repr, DecidableEq

/-- `Exercise` (src/clients/models/common.rs). -/
structure Exercise where
  index : Nat
  title : String
  notes : Option String
  exerciseTemplateId : String
  supersetId : Option Nat
  restSeconds : Option Nat
  sets : List ExerciseSet
deriving Repr, DecidableEq

/-- `WorkoutResponse` (src/clients/models/responses.rs). -/
structure Workout where
  id : String
  title : String
  routineId : String
  description : String
  startTime : String
  endTime : String
  updatedAt : String
  createdAt : String
  exercises : List Exercise
deriving Repr, DecidableEq

/-- `RoutineResponse` (src/clients/models/responses.rs). -/
structure Routine where
  id : String
  title : String
  folderId : Option String
  updatedAt : String
  createdAt : String
  exercises : List Exercise
deriving Repr, DecidableEq

/-- `WorkoutsListResponse` (src/clients/models/responses.rs); `page`
and `page_size` echoes are irrelevant to the pipeline and omitted. -/
structure WorkoutsPage where
  workouts : List Workout
  totalCount : Int
deriving Repr, DecidableEq

/-! ## Numeric formatting

Rust's `{:.0}`/`{:.1}` float formatting rounds half to even. -/

/-- Round half to even of the fraction `num / den` (with `den > 0`):
the rounding Rust float `Display` performs.  Written on the numerator
and denominator directly so the kernel can evaluate it (rational
field arithmetic does not kernel-reduce). -/
def rheScaled (num : Int) (den : Nat) : Int :=
  let f := Int.fdiv num den
  let r := num - f * (den : Int)
  if 2 * r < (den : Int) then f
  else if (den : Int) < 2 * r then f + 1
  else if Int.emod f 2 = 0 then f else f + 1

/-- `format!("{:.0}", v)`. -/
def fmtNoDecimal (q : ℚ) : String :=
  toString (rheScaled q.num q.den)

/-- `format!("{:.1}", v)`. -/
def fmtOneDecimal (q : ℚ) : String :=
  let t := rheScaled (10 * q.num) q.den
  let sign := if t < 0 then "-" else ""
  sign ++ toString (t.natAbs / 10) ++ "." ++ toString (t.natAbs % 10)

/-- `(v.fract()).abs() > f32::EPSILON` on the rational model:
`fract` truncates toward zero, so the fractional part is
`(num tmod den) / den`, and the comparison against `2⁻²³`
cross-multiplies. -/
def fractAbsGtEps (q : ℚ) : Bool :=
  q.den < (Int.tmod q.num (q.den : Int)).natAbs * 2 ^ 23

/-- `(v.fract()).abs() < f32::EPSILON` on the rational model. -/
def fractAbsLtEps (q : ℚ) : Bool :=
  (Int.tmod q.num (q.den : Int)).natAbs * 2 ^ 23 < q.den

example : fmtNoDecimal 80 = "80" := by decide
example : fmtOneDecimal (mkRat 5 2) = "2.5" := by decide

/-! ## Prompt-side formatting (src/services/ai_prompt.rs) -/

/-- `format_weight` (src/services/ai_prompt.rs). -/
def formatWeight (weight : Option ℚ) : String :=
  match weight with
  | some value =>
    if fractAbsGtEps value then fmtOneDecimal value ++ "kg"
    else fmtNoDecimal value ++ "kg"
  | none => "BW"

/-- `format_reps` (src/services/ai_prompt.rs). -/
def formatReps (reps : Option Nat) : String :=
  match reps with
  | some value => toString value
  | none => "N/A"

/-- `format_set_list` (src/services/ai_prompt.rs). -/
def formatSetList (sets : List ExerciseSet) : String :=
  String.join (sets.map fun s =>
    "  * Set " ++ toString (s.index + 1) ++ ": " ++ formatWeight s.weightKg
      ++ " x " ++ formatReps s.reps ++ " (" ++ s.setType ++ ")\n")

/-- `format_exercise_list` (src/services/ai_prompt.rs). -/
def formatExerciseList (exercises : List Exercise) : String :=
  String.join (exercises.map fun ex =>
    "- " ++ ex.title ++ " (" ++ ex.exerciseTemplateId ++ ")\n"
      ++ formatSetList ex.sets ++ "\n")

/-- `format_workout_for_prompt` (src/services/ai_prompt.rs). -/
def formatWorkoutForPrompt (w : Workout) : String :=
  "Workout Title: " ++ w.title ++ "\n"
    ++ "Start Time: " ++ w.startTime ++ "\n"
    ++ "End Time: " ++ w.endTime ++ "\n"
    ++ "\nExercises:\n"
    ++ formatExerciseList w.exercises

/-! ## Deload context builder (src/services/deload.rs)

The tracker's paginated history endpoint `get_workouts(page, pageSize)`
is an external collaborator; it enters as an oracle
`fetch : page → pageSize → Option WorkoutsPage`, `none` standing for a
fetch error.  The `for page in 0..max_pages` loops become fuel
recursion with fuel `max_pages = 10`. -/

/-- History-fetch oracle: `HevyClient::get_workouts`, `none` = `Err`. -/
abbrev HistFetch := Nat → Nat → Option WorkoutsPage

/-- `DeloadCalculator` (src/services/deload.rs); the `f64` intensity is
modelled as a rational. -/
structure DeloadCalculator where
  deloadIntensityPercentage : ℚ
deriving Repr, DecidableEq

/-- `DeloadCalculator::default`: 60% deload intensity (`0.60`). -/
def defaultDeloadCalculator : DeloadCalculator :=
  ⟨mkRat 3 5⟩

/-- `(self.deload_intensity_percentage * 100.0) as u32`, computed on
the numerator/denominator (`as` truncates toward zero; at the default
`0.60` the `f64` product is exactly `60.0`). -/
def deloadIntensityPct (c : DeloadCalculator) : Nat :=
  (Int.tdiv (100 * c.deloadIntensityPercentage.num)
    (c.deloadIntensityPercentage.den : Int)).toNat

/-- `DeloadCalculator::generate_deload_instruction`
(src/services/deload.rs). -/
def generateDeloadInstruction (c : DeloadCalculator) (hasReference : Bool) : String :=
  if hasReference then
    " CYCLE TRANSITION: You are transitioning from Week 8 (deload) to Week 1 of a NEW 8-week block. "
      ++ "This should be a DELOAD week with " ++ toString (deloadIntensityPct c)
      ++ "% intensity and reduced volume based on the reference workout provided "
      ++ "(either Week 1 from previous cycle or Week 7 max effort as baseline). "
      ++ "Apply the deload percentage to the reference weights. Focus on form, recovery, and conservative loading."
  else
    " CYCLE TRANSITION: You are transitioning from Week 8 (deload) to Week 1 of a NEW 8-week block. "
      ++ "This should be a DELOAD week with " ++ toString (deloadIntensityPct c)
      ++ "% intensity reduction from current weights and reduced volume. "
      ++ "Focus on form, recovery, and conservative loading to prepare for the new training cycle."

/-- `DeloadContextBuilder::is_week1_same_day_workout`
(src/services/deload.rs). -/
def isWeek1SameDayWorkout (w : Workout) (targetDay : Nat) : Bool :=
  match extractWeekFromTitle w.title, extractDayFromTitle w.title with
  | some 1, some workoutDay => workoutDay == targetDay
  | _, _ => false

/-- `extract_week_from_title(title) == Some(7) && routine_id ==
current.routine_id`: the fallback predicate of
`find_week1_reference_with_fallback` (src/services/deload.rs). -/
def week7SameRoutine (currentWorkout w : Workout) : Bool :=
  extractWeekFromTitle w.title == some 7 && w.routineId == currentWorkout.routineId

/-- The page loop shared by both reference searches
(src/services/deload.rs lines 145-163 and 179-199): scan each fetched
page for the first match, stop early once `(page + 1) * page_size`
reaches the reported total count, skip pages whose fetch errors
(`continue`), give up when the page budget (fuel) is exhausted. -/
def referenceSearchLoop (fetch : HistFetch) (pred : Workout → Bool)
    (pageSize : Nat) : Nat → Nat → Except String (Option Workout)
  | _, 0 => .ok none
  | page, fuel + 1 =>
    match fetch page pageSize with
    | some resp =>
      match resp.workouts.find? pred with
      | some w => .ok (some w)
      | none =>
        if resp.totalCount ≤ ((page + 1) * pageSize : Nat) then .ok none
        else referenceSearchLoop fetch pred pageSize (page + 1) fuel
    | none => referenceSearchLoop fetch pred pageSize (page + 1) fuel

/-- The pages the loop requests, in order (instrumentation of
`referenceSearchLoop` for the pagination claims). -/
def referenceSearchCalls (fetch : HistFetch) (pred : Workout → Bool)
    (pageSize : Nat) : Nat → Nat → List Nat
  | _, 0 => []
  | page, fuel + 1 =>
    page ::
      (match fetch page pageSize with
      | some resp =>
        match resp.workouts.find? pred with
        | some _ => []
        | none =>
          if resp.totalCount ≤ ((page + 1) * pageSize : Nat) then []
          else referenceSearchCalls fetch pred pageSize (page + 1) fuel
      | none => referenceSearchCalls fetch pred pageSize (page + 1) fuel)

/-- `DeloadContextBuilder::find_week1_reference`
(src/services/deload.rs): week-1 workout with the same day number as
the current workout; skipped entirely when the current title has no
day token. -/
def findWeek1Reference (fetch : HistFetch) (currentWorkout : Workout) :
    Except String (Option Workout) :=
  match extractDayFromTitle currentWorkout.title with
  | none => .ok none
  | some currentDay =>
    referenceSearchLoop fetch (fun w => isWeek1SameDayWorkout w currentDay) 10 0 10

/-- `DeloadContextBuilder::find_week1_reference_with_fallback`
(src/services/deload.rs): the exact-day search, then the week-7
same-routine fallback search. -/
def findWeek1ReferenceWithFallback (fetch : HistFetch)
    (currentWorkout : Workout) : Except String (Option Workout) :=
  match findWeek1Reference fetch currentWorkout with
  | .error e => .error e
  | .ok (some reference) => .ok (some reference)
  | .ok none => referenceSearchLoop fetch (week7SameRoutine currentWorkout) 10 0 10

/-- `DeloadContext` (src/services/deload.rs). -/
structure DeloadContext where
  nextWeekIndex : Nat
  cycleInstruction : String
  referenceData : String
deriving Repr, DecidableEq

/-- `DeloadContextBuilder::create_deload_transition_context`
(src/services/deload.rs). -/
def createDeloadTransitionContext (c : DeloadCalculator) (fetch : HistFetch)
    (currentWeekIndex : Nat) (workout : Workout) : DeloadContext :=
  let nextWeekIndex := if currentWeekIndex ≥ 8 then 1 else currentWeekIndex + 1
  if currentWeekIndex < 8 then
    ⟨nextWeekIndex, "", ""⟩
  else
    match findWeek1ReferenceWithFallback fetch workout with
    | .ok (some week1Reference) =>
      let weekLabel :=
        if extractWeekFromTitle week1Reference.title == some 1 then
          "WEEK 1 REFERENCE WORKOUT"
        else
          "WEEK 7 REFERENCE WORKOUT (max effort baseline)"
      ⟨nextWeekIndex, "\n\n" ++ generateDeloadInstruction c true,
        "\n\n" ++ weekLabel ++ " (for deload calculation):\n"
          ++ formatWorkoutForPrompt week1Reference⟩
    | .ok none =>
      ⟨nextWeekIndex, "\n\n" ++ generateDeloadInstruction c false, ""⟩
    | .error _ =>
      ⟨nextWeekIndex, "\n\n" ++ generateDeloadInstruction c false, ""⟩

/-! ## LLM response parsing (src/services/ai_parser.rs)

`serde_json::Value` is modelled by `Json`; serde distinguishes
integer-backed from float-backed numbers (`as_u64` only succeeds on the
former), hence two numeric constructors.  The text-level JSON grammar
lives in the external `serde_json` crate, so `serde_json::from_str`
enters as an oracle `JsonParse`; the derived deserializers for the
repository's own `Exercise`/`ExerciseSet` structs
(src/clients/models/common.rs) are modelled field by field below. -/

/-- `serde_json::Value`. -/
inductive Json where
  | null
  | bool (b : Bool)
  | intNum (n : Int)
  | floatNum (q : ℚ)
  | str (s : String)
  | arr (elems : List Json)
  | obj (fields : List (String × Json))

/-- Effectful map over a list in the `Option` monad: the semantics of
deserializing a `Vec` element by element (any element failure fails the
whole vector). -/
def mapMOpt {α β : Type} (f : α → Option β) : List α → Option (List β)
  | [] => some []
  | a :: l =>
    match f a, mapMOpt f l with
    | some b, some bs => some (b :: bs)
    | _, _ => none

/-- `Value::get(key)`: field of an object, `None` on any other shape. -/
def jGet (j : Json) (key : String) : Option Json :=
  match j with
  | .obj fields => fields.lookup key
  | _ => none

/-- `Value::as_u64`: integer-backed, non-negative, within `u64`. -/
def asU64 (j : Json) : Option Nat :=
  match j with
  | .intNum n => if 0 ≤ n ∧ n < 2 ^ 64 then some n.toNat else none
  | _ => none

/-- `Value::as_str`. -/
def asStr (j : Json) : Option String :=
  match j with
  | .str s => some s
  | _ => none

/-- serde deserialization of a `u32` field value. -/
def decodeU32 (j : Json) : Option Nat :=
  match j with
  | .intNum n => if 0 ≤ n ∧ n < 2 ^ 32 then some n.toNat else none
  | _ => none

/-- serde deserialization of an `f32` field value (integers and floats
are both accepted). -/
def decodeF32 (j : Json) : Option ℚ :=
  match j with
  | .intNum n => some (n : ℚ)
  | .floatNum q => some q
  | _ => none

/-- serde deserialization of a `String` field value. -/
def decodeStr (j : Json) : Option String :=
  match j with
  | .str s => some s
  | _ => none

/-- A required struct field: missing or undecodable fails. -/
def reqField {α : Type} (fields : List (String × Json)) (key : String)
    (dec : Json → Option α) : Option α :=
  (fields.lookup key).bind dec

/-- An `Option<T>` struct field: missing or `null` is `None`,
a present non-null value must decode. -/
def optField {α : Type} (fields : List (String × Json)) (key : String)
    (dec : Json → Option α) : Option (Option α) :=
  match fields.lookup key with
  | none => some none
  | some .null => some none
  | some v => (dec v).map some

/-- Derived serde deserializer of `ExerciseSet`
(src/clients/models/common.rs); the JSON key for `set_type` is
`"type"`. -/
def decodeExerciseSet (j : Json) : Option ExerciseSet :=
  match j with
  | .obj fields => do
    let index ← reqField fields "index" decodeU32
    let setType ← reqField fields "type" decodeStr
    let weightKg ← optField fields "weight_kg" decodeF32
    let reps ← optField fields "reps" decodeU32
    let distanceMeters ← optField fields "distance_meters" decodeU32
    let durationSeconds ← optField fields "duration_seconds" decodeU32
    let rpe ← optField fields "rpe" decodeF32
    let customMetric ← optField fields "custom_metric" decodeF32
    some ⟨index, setType, weightKg, reps, distanceMeters, durationSeconds, rpe, customMetric⟩
  | _ => none

/-- Derived serde deserializer of `Exercise`
(src/clients/models/common.rs). -/
def decodeExercise (j : Json) : Option Exercise :=
  match j with
  | .obj fields => do
    let index ← reqField fields "index" decodeU32
    let title ← reqField fields "title" decodeStr
    let notes ← optField fields "notes" decodeStr
    let templateId ← reqField fields "exercise_template_id" decodeStr
    let supersetId ← optField fields "superset_id" decodeU32
    let restSeconds ← optField fields "rest_seconds" decodeU32
    let sets ← reqField fields "sets" fun v =>
      match v with
      | .arr xs => mapMOpt decodeExerciseSet xs
      | _ => none
    some ⟨index, title, notes, templateId, supersetId, restSeconds, sets⟩
  | _ => none

/-- First index at which `pat` occurs as a contiguous sublist:
`str::find` of a literal pattern. -/
def findSubIdx {α : Type} [DecidableEq α] (pat : List α) : List α → Option Nat
  | [] => if pat.isPrefixOf ([] : List α) then some 0 else none
  | s@(_ :: rest) =>
    if pat.isPrefixOf s then some 0 else (findSubIdx pat rest).map (· + 1)

/-- `str::trim`: Unicode whitespace stripped from both ends. -/
def rustTrim (s : List Char) : List Char :=
  ((s.dropWhile isRustWs).reverse.dropWhile isRustWs).reverse

/-- The characters of the opening fence `the three backticks + "json"`. -/
def jsonFenceOpen : List Char :=
  [Char.ofNat 96, Char.ofNat 96, Char.ofNat 96, 'j', 's', 'o', 'n']

/-- The characters of a closing fence (three backticks). -/
def fenceClose : List Char :=
  [Char.ofNat 96, Char.ofNat 96, Char.ofNat 96]

/-- `extract_json_from_response` (src/services/ai_parser.rs): interior
of a ```json fenced block when one exists, otherwise the trimmed whole
response.  The fence patterns are ASCII, so the source's byte indices
coincide with character boundaries. -/
def extractJsonFromResponse (response : String) : String :=
  let chars := response.toList
  match findSubIdx jsonFenceOpen chars with
  | some blockStart =>
    let remaining := chars.drop (blockStart + jsonFenceOpen.length)
    match findSubIdx fenceClose remaining with
    | some blockEnd => String.mk (rustTrim (remaining.take blockEnd))
    | none => String.mk (rustTrim remaining)
  | none => String.mk (rustTrim chars)

/-- The `serde_json::from_str` oracle: `none` = JSON syntax error. -/
abbrev JsonParse := String → Option Json

/-- `extract_exercises_from_json` (src/services/ai_parser.rs): the
`updated_exercises` key deserialized as `Vec<Exercise>`. -/
def extractExercisesFromJson (j : Json) : Option (List Exercise) :=
  (jGet j "updated_exercises").bind fun v =>
    match v with
    | .arr xs => mapMOpt decodeExercise xs
    | _ => none

/-- `extract_week_number_from_json` (src/services/ai_parser.rs):
`as_u64` then `as u32` truncation, default 1. -/
def extractWeekNumberFromJson (j : Json) : Nat :=
  match (jGet j "week_number").bind asU64 with
  | some n => n % 2 ^ 32
  | none => 1

/-- `extract_routine_title_from_json` (src/services/ai_parser.rs). -/
def extractRoutineTitleFromJson (j : Json) : String :=
  ((jGet j "routine_title").bind asStr).getD "Updated Routine"

/-- `ProgressiveOverloadResponse` (src/services/progressive_overload.rs). -/
structure OverloadResponse where
  updatedExercises : List Exercise
  weekNumber : Nat
  routineTitle : String
deriving Repr, DecidableEq

/-- `parse_gemini_response` (src/services/ai_parser.rs), with the
`serde_json::from_str` step as the oracle `p`. -/
def parseGeminiResponse (p : JsonParse) (response : String) : Option OverloadResponse :=
  match p (extractJsonFromResponse response) with
  | none => none
  | some parsedJson =>
    match extractExercisesFromJson parsedJson with
    | none => none
    | some exercises =>
      some ⟨exercises, extractWeekNumberFromJson parsedJson,
        extractRoutineTitleFromJson parsedJson⟩

/-! ## Suggestion formatting (src/services/output_formatter.rs)

`extract_rpe_from_notes` computes a byte offset in
`notes.to_lowercase()` and slices the *original* `notes` with it, so
the byte arithmetic is modelled explicitly via UTF-8 sizes; an invalid
slice index (Rust panic) is `Except.error`. -/

/-- UTF-8 encoding of a scalar value. -/
def utf8Bytes (c : Char) : List Nat :=
  let n := c.toNat
  if n < 128 then [n]
  else if n < 2048 then [192 + n / 64, 128 + n % 64]
  else if n < 65536 then [224 + n / 4096, 128 + n / 64 % 64, 128 + n % 64]
  else [240 + n / 262144, 128 + n / 4096 % 64, 128 + n / 64 % 64, 128 + n % 64]

/-- The valid slice start offsets of a string: the byte positions that
are character boundaries (including the total length). -/
def byteBoundaries : List Char → List Nat
  | [] => [0]
  | c :: rest => 0 :: (byteBoundaries rest).map (· + (utf8Bytes c).length)

/-- The characters from byte offset `i` on (only applied at character
boundaries). -/
def dropBytesChars : List Char → Nat → List Char
  | s, 0 => s
  | [], _ + 1 => []
  | c :: rest, i + 1 => dropBytesChars rest (i + 1 - (utf8Bytes c).length)

/-- `char::to_lowercase` restricted to the character classes this
development exercises, per Unicode SpecialCasing as Rust implements it:
ASCII letters fold to ASCII, `İ` (U+0130) expands to `i` followed by
U+0307; other characters are left unchanged (no title/notes text in
the claims uses any further case-folding character). -/
def rustCharToLowercase (c : Char) : List Char :=
  if 65 ≤ c.toNat ∧ c.toNat ≤ 90 then [Char.ofNat (c.toNat + 32)]
  else if c.toNat = 304 then [Char.ofNat 105, Char.ofNat 775]
  else [c]

/-- `str::split_whitespace`: maximal runs of non-whitespace. -/
def splitWsAux : List Char → List Char → List (List Char)
  | [], acc => if acc.isEmpty then [] else [acc.reverse]
  | c :: rest, acc =>
    if isRustWs c then
      if acc.isEmpty then splitWsAux rest [] else acc.reverse :: splitWsAux rest []
    else splitWsAux rest (c :: acc)

/-- `str::split_whitespace` on a character list. -/
def splitWhitespaceWords (s : List Char) : List (List Char) :=
  splitWsAux s []

/-- The word filter of `extract_rpe_from_notes`: contains an ASCII
digit and consists only of ASCII digits and hyphens. -/
def rpeWordQualifies (word : List Char) : Bool :=
  word.any isAsciiDigitC && word.all (fun ch => isAsciiDigitC ch || ch == '-')

/-- `extract_rpe_from_notes` (src/services/output_formatter.rs): the
`"rpe"` byte offset is located in the lowercased copy, `3` is added,
and the *original* string is sliced there; `Except.error` is the Rust
panic when that index is out of bounds or not a character boundary. -/
def extractRpeFromNotes (notes : List Char) : Except Unit (Option String) :=
  let lowered := notes.flatMap rustCharToLowercase
  match findSubIdx [114, 112, 101] (lowered.flatMap utf8Bytes) with
  | none => .ok none
  | some start =>
    if (byteBoundaries notes).contains (start + 3) then
      let afterRpe := dropBytesChars notes (start + 3)
      .ok ((((splitWhitespaceWords afterRpe).take 2).find? rpeWordQualifies).map
        fun w => String.mk w)
    else .error ()

/-- `str::eq_ignore_ascii_case`. -/
def eqIgnoreAsciiCase (a b : String) : Bool :=
  a.toList.map toLowerAscii == b.toList.map toLowerAscii

/-- The working sets of an exercise: the `filter` in
`build_exercise_suggestions` dropping sets whose type is `warmup`
(ASCII case-insensitively). -/
def workingSets (ex : Exercise) : List ExerciseSet :=
  ex.sets.filter fun s => !(eqIgnoreAsciiCase s.setType "warmup")

/-- The per-set suggestion line of `build_exercise_suggestions`:
`"<weight>x<reps>"`, or `"<reps> reps"` without a weight; missing reps
render as `"?"`. -/
def setSuggestionLine (s : ExerciseSet) : String :=
  let reps := match s.reps with
    | some value => toString value
    | none => "?"
  match s.weightKg with
  | some value =>
    (if fractAbsLtEps value then fmtNoDecimal value else fmtOneDecimal value)
      ++ "x" ++ reps
  | none => reps ++ " reps"

/-- The `lines` vector `build_exercise_suggestions` accumulates for one
exercise (empty when the exercise has no working sets); propagates the
potential `extract_rpe_from_notes` panic. -/
def exerciseSuggestionLines (ex : Exercise) : Except Unit (List String) :=
  let ws := workingSets ex
  if ws.isEmpty then .ok []
  else
    match ex.notes with
    | some notes =>
      match extractRpeFromNotes notes.toList with
      | .error e => .error e
      | .ok rpeOpt =>
        let rpeLines := match rpeOpt with
          | some rpe => ["RPE " ++ rpe]
          | none => []
        .ok ((toString ws.length ++ " sets") :: rpeLines ++ ws.map setSuggestionLine)
    | none => .ok ((toString ws.length ++ " sets") :: ws.map setSuggestionLine)

/-- `HashMap::insert`: overwrite semantics on an association list. -/
def mapInsert (m : List (String × String)) (k v : String) : List (String × String) :=
  (k, v) :: m.filter fun kv => kv.1 != k

/-- The exercise loop of `build_exercise_suggestions`, threading the
accumulated map. -/
def buildSuggestionsAux : List Exercise → List (String × String) →
    Except Unit (List (String × String))
  | [], m => .ok m
  | ex :: rest, m =>
    match exerciseSuggestionLines ex with
    | .error e => .error e
    | .ok lines =>
      if lines.isEmpty then buildSuggestionsAux rest m
      else buildSuggestionsAux rest
        (mapInsert m ex.exerciseTemplateId (String.intercalate "\n" lines))

/-- `build_exercise_suggestions` (src/services/output_formatter.rs):
template-id-keyed notes, one entry per exercise with a non-empty line
list. -/
def buildExerciseSuggestions (response : OverloadResponse) :
    Except Unit (List (String × String)) :=
  buildSuggestionsAux response.updatedExercises []

/-! ## Routine-update payload (src/clients/models/common.rs,
src/clients/models/requests.rs)

`ExerciseSetForUpdate` has no `rpe` field; serialization is modelled as
the ordered key/value list serde emits (`rep_range` is skipped when
`None`). -/

/-- `RepRange` (src/clients/models/common.rs). -/
structure RepRange where
  start : Option Nat
  stop : Option Nat
deriving Repr, DecidableEq

/-- `ExerciseSetForUpdate` (src/clients/models/common.rs): the
write-side set record, with no `rpe` field. -/
structure ExerciseSetForUpdate where
  setType : String
  weightKg : Option ℚ
  reps : Option Nat
  distanceMeters : Option Nat
  durationSeconds : Option Nat
  customMetric : Option ℚ
  repRange : Option RepRange
deriving Repr, DecidableEq

/-- `ExerciseForUpdate` (src/clients/models/common.rs). -/
structure ExerciseForUpdate where
  exerciseTemplateId : String
  supersetId : Option Nat
  restSeconds : Option Nat
  notes : Option String
  sets : List ExerciseSetForUpdate
deriving Repr, DecidableEq

/-- `ExerciseSet::to_update_format` (src/clients/models/common.rs):
drops `rpe`, sets `rep_range: None`. -/
def setToUpdateFormat (s : ExerciseSet) : ExerciseSetForUpdate :=
  ⟨s.setType, s.weightKg, s.reps, s.distanceMeters, s.durationSeconds,
    s.customMetric, none⟩

/-- `Exercise::to_update_format` (src/clients/models/common.rs): keeps
the exercise's existing `notes`. -/
def exToUpdateFormat (e : Exercise) : ExerciseForUpdate :=
  ⟨e.exerciseTemplateId, e.supersetId, e.restSeconds, e.notes,
    e.sets.map setToUpdateFormat⟩

/-- JSON value of an `Option<u32>` field. -/
def jsonOfOptNat : Option Nat → Json
  | some n => .intNum n
  | none => .null

/-- JSON value of an `Option<f32>` field. -/
def jsonOfOptRat : Option ℚ → Json
  | some q => .floatNum q
  | none => .null

/-- Derived serde serialization of `ExerciseSetForUpdate`: the ordered
key/value pairs emitted, with `rep_range` skipped when `None`
(`skip_serializing_if`) and no `rpe` key in the schema. -/
def serializeSetForUpdate (s : ExerciseSetForUpdate) : List (String × Json) :=
  [("type", .str s.setType),
   ("weight_kg", jsonOfOptRat s.weightKg),
   ("reps", jsonOfOptNat s.reps),
   ("distance_meters", jsonOfOptNat s.distanceMeters),
   ("duration_seconds", jsonOfOptNat s.durationSeconds),
   ("custom_metric", jsonOfOptRat s.customMetric)]
  ++ (match s.repRange with
      | none => []
      | some r => [("rep_range",
          .obj [("start", jsonOfOptNat r.start), ("end", jsonOfOptNat r.stop)])])

/-- `RoutineUpdate` (src/clients/models/requests.rs). -/
structure RoutineUpdate where
  title : Option String
  notes : Option String
  folderId : Option String
  exercises : Option (List ExerciseForUpdate)
deriving Repr, DecidableEq

/-! ## Event intake (src/api/webhooks.rs)

The tracker and LLM collaborators of `process_single_workout` enter as
an oracle record; `none`/`false` stand for the `Err` results logged and
swallowed by the handler.  The `Authorization` header is modelled at
the granularity the code inspects it: absent, present but not
decodable as a string (`HeaderValue::to_str` error), or a decoded
string. -/

/-- The collaborator calls of `process_single_workout`:
tracker fetches, the orchestrator's LLM round trip, and the write-back
(`true` = the `PUT` succeeded). -/
structure OverloadEnv where
  getWorkout : String → Option Workout
  getRoutine : String → Option Routine
  processWorkoutCompletion : Workout → Routine → Option OverloadResponse
  updateRoutine : String → RoutineUpdate → Bool

/-- `HashSet::insert` on the processed-ids set. -/
def setInsert (s : List String) (x : String) : List String :=
  if x ∈ s then s else x :: s

/-- How one processing attempt of an event id ended. -/
inductive ProcOutcome where
  | workoutFetchFailed
  | noRoutine
  | routineFetchFailed
  | overloadFailed
  | suggestionPanic
  | completed (writeBackOk : Bool)
deriving Repr, DecidableEq

/-- The `updated_exercises` payload assembly of
`process_single_workout` (src/api/webhooks.rs lines 183-191): the
routine's exercises in update format, `notes` overwritten by the
suggestion for the exercise's template id when one exists. -/
def buildUpdatedExercises (routineExercises : List ExerciseForUpdate)
    (suggestions : List (String × String)) : List ExerciseForUpdate :=
  routineExercises.map fun ex =>
    match suggestions.lookup ex.exerciseTemplateId with
    | some newNotes => { ex with notes := some newNotes }
    | none => ex

/-- `process_single_workout` (src/api/webhooks.rs): one processing
attempt, returning the updated processed-ids set and how the attempt
ended. -/
def processSingleWorkout (env : OverloadEnv) (processed : List String)
    (workoutId : String) : List String × ProcOutcome :=
  match env.getWorkout workoutId with
  | none => (processed, .workoutFetchFailed)
  | some workout =>
    if workout.routineId = "" ∨ workout.routineId = "null" then
      (setInsert processed workoutId, .noRoutine)
    else
      match env.getRoutine workout.routineId with
      | none => (processed, .routineFetchFailed)
      | some routine =>
        let routineExercisesForUpdate := routine.exercises.map exToUpdateFormat
        match env.processWorkoutCompletion workout routine with
        | none => (processed, .overloadFailed)
        | some response =>
          match buildExerciseSuggestions response with
          | .error _ => (processed, .suggestionPanic)
          | .ok exerciseSuggestions =>
            let updatedExercises :=
              buildUpdatedExercises routineExercisesForUpdate exerciseSuggestions
            let _updateOk := env.updateRoutine workout.routineId
              ⟨some response.routineTitle, none, none, some updatedExercises⟩
            (setInsert processed workoutId, .completed _updateOk)

/-- The routine-update request `process_single_workout` sends when it
reaches the write-back, for a given routine and parsed response. -/
def routineUpdateRequest (routine : Routine) (response : OverloadResponse)
    (exerciseSuggestions : List (String × String)) : RoutineUpdate :=
  ⟨some response.routineTitle, none, none,
    some (buildUpdatedExercises (routine.exercises.map exToUpdateFormat)
      exerciseSuggestions)⟩

/-- `authenticate_request` (src/api/webhooks.rs): `true` iff the
`Authorization` header is present, decodable, `Bearer `-prefixed and
carries exactly the configured token.  (`&auth_str[7..]` slices off the
7 ASCII bytes of `"Bearer "`, which the prefix check guarantees to be a
character boundary.) -/
def authenticateRequest (authHeader : Option (Option String))
    (webhookToken : String) : Bool :=
  match authHeader with
  | none => false
  | some none => false
  | some (some authStr) =>
    if !(authStr.startsWith "Bearer ") then false
    else authStr.drop 7 == webhookToken

/-- `handle_workout_completion` (src/api/webhooks.rs): the HTTP status
returned to the sender, plus the processed-ids set as the detached
background task leaves it.  The status is fixed before the background
work runs. -/
def handleWorkoutCompletion (authHeader : Option (Option String))
    (webhookToken : String) (env : OverloadEnv) (processed : List String)
    (workoutId : String) : Nat × List String :=
  if authenticateRequest authHeader webhookToken then
    (200, (processSingleWorkout env processed workoutId).1)
  else
    (401, processed)

/-! ## Reconciliation scheduler (src/scheduler.rs)

`Utc::now()` and `DateTime::parse_from_rfc3339` enter as oracles over
an integer timeline of seconds. -/

/-- Collaborators of `run_sync`. -/
structure SyncEnv where
  overload : OverloadEnv
  getWorkouts : HistFetch
  parseRfc3339 : String → Option Int
  now : Int

/-- The observable outcome of one `run_sync` pass: whether it returned
`Ok`, the processed-ids set afterwards, the workout-history requests it
issued itself (page, pageSize), and the workouts it considered before
the trailing-24-hour filter and the processed-id skip. -/
structure SyncResult where
  ok : Bool
  processed : List String
  historyCalls : List (Nat × Nat)
  considered : List Workout
deriving Repr, DecidableEq

/-- `run_sync` (src/scheduler.rs): fetch one history page (page 1, page
size 10), keep entries created within the trailing 24 hours, skip ids
already processed, run the rest through `process_single_workout`. -/
def runSync (env : SyncEnv) (processed : List String) : SyncResult :=
  match env.getWorkouts 1 10 with
  | none => ⟨false, processed, [(1, 10)], []⟩
  | some resp =>
    let cutoff := env.now - 24 * 3600
    let recent := resp.workouts.filter fun w =>
      match env.parseRfc3339 w.createdAt with
      | some created => cutoff < created
      | none => false
    let finalProcessed := recent.foldl
      (fun acc w =>
        if w.id ∈ acc then acc
        else (processSingleWorkout env.overload acc w.id).1)
      processed
    ⟨true, finalProcessed, [(1, 10)], resp.workouts⟩

/-! ## Helper lemmas -/

theorem hasWeekMatch_of_extract {title : String} {w : Nat}
    (h : extractWeekFromTitle title = some w) : hasWeekMatch title = true := by
  unfold extractWeekFromTitle at h
  unfold hasWeekMatch
  cases hf : findTokenNum ['w', 'e', 'e', 'k'] title.toList with
  | none => rw [hf] at h; simp at h
  | some ds => simp [hf]

theorem hasDayMatch_of_extract {title : String} {d : Nat}
    (h : extractDayFromTitle title = some d) : hasDayMatch title = true := by
  unfold extractDayFromTitle at h
  unfold hasDayMatch
  cases hf : findTokenNum ['d', 'a', 'y'] title.toList with
  | none => rw [hf] at h; simp at h
  | some ds => simp [hf]

/-! ## C5: next-routine-title function -/

/-- C5 counterexample: at the title `"Day 4294967295"` (the day
numeral is `u32::MAX`, accepted by `parse::<u32>`), the day-only
branch's `u32` increment wraps and the program returns `"Day 0"`
(a debug build panics), not `"Day 4294967296"` as the claim's
`"Day <d+1>"` case states. -/
theorem next_routine_title_day_overflow_counterexample :
    determineRoutineTitleFormat "Day 4294967295" = "Day 0"
    ∧ extractDayFromTitle "Day 4294967295" = some 4294967295
    ∧ hasWeekMatch "Day 4294967295" = false
    ∧ determineRoutineTitleFormat "Day 4294967295" ≠
        "Day " ++ toString (4294967295 + 1) := by
  refine ⟨by decide, by decide, by decide, by decide⟩

/-- C5 amended: `determine_routine_title_format` returns
`"Day <d> - Week <w+1>"` when both tokens parse and the week is below
8, wraps the week to 1 at week ≥ 8 leaving the day unchanged, returns
`"Day <(d+1) mod 2^32>"` when only a day token matches (the `u32`
increment wraps at `u32::MAX`, so `"Day 0"` there), `"Week <w+1>"`
(same week wrap) when only a week token matches, and the literal
`"Week 2"` when neither token matches. -/
theorem next_routine_title_spec (title : String) :
    (∀ w d, extractWeekFromTitle title = some w → extractDayFromTitle title = some d →
      determineRoutineTitleFormat title =
        "Day " ++ toString d ++ " - Week " ++ toString (if 8 ≤ w then 1 else w + 1))
    ∧ (∀ d, hasWeekMatch title = false → extractDayFromTitle title = some d →
      determineRoutineTitleFormat title = "Day " ++ toString ((d + 1) % 2 ^ 32))
    ∧ (∀ w, extractWeekFromTitle title = some w → hasDayMatch title = false →
      determineRoutineTitleFormat title =
        "Week " ++ toString (if 8 ≤ w then 1 else w + 1))
    ∧ (hasWeekMatch title = false → hasDayMatch title = false →
      determineRoutineTitleFormat title = "Week 2") := by
  refine ⟨?_, ?_, ?_, ?_⟩
  · intro w d hw hd
    simp [determineRoutineTitleFormat, extractWeekAndDay,
      hasWeekMatch_of_extract hw, hasDayMatch_of_extract hd, hw, hd]
  · intro d hw hd
    simp [determineRoutineTitleFormat, extractWeekAndDay,
      hw, hasDayMatch_of_extract hd, hd]
  · intro w hw hd
    simp [determineRoutineTitleFormat, extractWeekAndDay,
      hasWeekMatch_of_extract hw, hd, hw]
  · intro hw hd
    simp [determineRoutineTitleFormat, hw, hd]

/-- C5 witness: concrete instantiations of every case, including the
week 8→1 wrap with the day left unchanged and the day-only `u32` wrap
at `u32::MAX`. -/
theorem next_routine_title_spec_witness :
    determineRoutineTitleFormat "Day 2 - Week 8" = "Day 2 - Week 1"
    ∧ determineRoutineTitleFormat "Day 1 - Week 2" = "Day 1 - Week 3"
    ∧ determineRoutineTitleFormat "Day 1" = "Day 2"
    ∧ determineRoutineTitleFormat "Day 4294967295" = "Day 0"
    ∧ determineRoutineTitleFormat "Week 9" = "Week 1"
    ∧ determineRoutineTitleFormat "Push Press" = "Week 2" := by
  refine ⟨?_, ?_, ?_, ?_, ?_, ?_⟩
  · have h := (next_routine_title_spec "Day 2 - Week 8").1 8 2 (by decide) (by decide)
    simpa using h
  · have h := (next_routine_title_spec "Day 1 - Week 2").1 2 1 (by decide) (by decide)
    simpa using h
  · exact (next_routine_title_spec "Day 1").2.1 1 (by decide) (by decide)
  · have h := (next_routine_title_spec "Day 4294967295").2.1 4294967295
      (by decide) (by decide)
    simpa using h
  · have h := (next_routine_title_spec "Week 9").2.2.1 9 (by decide) (by decide)
    simpa using h
  · exact (next_routine_title_spec "Push Press").2.2.2 (by decide) (by decide)

/-! ## C6: deload context below week 8 -/

/-- C6: for a current week below 8 the deload context is
`nextWeek = current + 1` with empty instruction text and no reference
data, for every history oracle (no history search is consulted). -/
theorem deload_context_below_week8 (c : DeloadCalculator) (fetch : HistFetch)
    (currentWeekIndex : Nat) (workout : Workout)
    (h : currentWeekIndex < 8) :
    createDeloadTransitionContext c fetch currentWeekIndex workout =
      ⟨currentWeekIndex + 1, "", ""⟩ := by
  unfold createDeloadTransitionContext
  have h8 : ¬ currentWeekIndex ≥ 8 := Nat.not_le.mpr h
  simp [h, h8]

/-- C6 witness: week 3 with an all-failing history oracle. -/
theorem deload_context_below_week8_witness :
    createDeloadTransitionContext defaultDeloadCalculator (fun _ _ => none) 3
      ⟨"w1", "Day 1 - Week 3", "r1", "", "", "", "", "", []⟩ = ⟨4, "", ""⟩ :=
  deload_context_below_week8 _ _ 3 _ (by decide)

/-! ## C3: deload context at week ≥ 8 and the reference search -/

theorem referenceSearchLoop_step_fetchError {fetch : HistFetch} {pred : Workout → Bool}
    {pageSize page n : Nat} (hf : fetch page pageSize = none) :
    referenceSearchLoop fetch pred pageSize page (n + 1) =
      referenceSearchLoop fetch pred pageSize (page + 1) n := by
  simp only [referenceSearchLoop, hf]

theorem referenceSearchLoop_step_found {fetch : HistFetch} {pred : Workout → Bool}
    {pageSize page n : Nat} {resp : WorkoutsPage} {w : Workout}
    (hf : fetch page pageSize = some resp)
    (hfind : resp.workouts.find? pred = some w) :
    referenceSearchLoop fetch pred pageSize page (n + 1) = .ok (some w) := by
  simp only [referenceSearchLoop, hf, hfind]

theorem referenceSearchLoop_step_exhausted {fetch : HistFetch} {pred : Workout → Bool}
    {pageSize page n : Nat} {resp : WorkoutsPage}
    (hf : fetch page pageSize = some resp)
    (hfind : resp.workouts.find? pred = none)
    (hstop : resp.totalCount ≤ (((page + 1) * pageSize : Nat) : Int)) :
    referenceSearchLoop fetch pred pageSize page (n + 1) = .ok none := by
  simp only [referenceSearchLoop, hf, hfind]
  rw [if_pos hstop]

theorem referenceSearchLoop_step_nextPage {fetch : HistFetch} {pred : Workout → Bool}
    {pageSize page n : Nat} {resp : WorkoutsPage}
    (hf : fetch page pageSize = some resp)
    (hfind : resp.workouts.find? pred = none)
    (hstop : ¬ resp.totalCount ≤ (((page + 1) * pageSize : Nat) : Int)) :
    referenceSearchLoop fetch pred pageSize page (n + 1) =
      referenceSearchLoop fetch pred pageSize (page + 1) n := by
  simp only [referenceSearchLoop, hf, hfind]
  rw [if_neg hstop]

theorem referenceSearchLoop_never_errors (fetch : HistFetch) (pred : Workout → Bool)
    (pageSize : Nat) :
    ∀ fuel page, ∃ o, referenceSearchLoop fetch pred pageSize page fuel = .ok o := by
  intro fuel
  induction fuel with
  | zero => exact fun page => ⟨none, rfl⟩
  | succ n ih =>
    intro page
    cases hf : fetch page pageSize with
    | none =>
      rw [referenceSearchLoop_step_fetchError hf]
      exact ih (page + 1)
    | some resp =>
      cases hfind : resp.workouts.find? pred with
      | some w => exact ⟨some w, referenceSearchLoop_step_found hf hfind⟩
      | none =>
        by_cases hstop : resp.totalCount ≤ (((page + 1) * pageSize : Nat) : Int)
        · exact ⟨none, referenceSearchLoop_step_exhausted hf hfind hstop⟩
        · rw [referenceSearchLoop_step_nextPage hf hfind hstop]
          exact ih (page + 1)

theorem referenceSearchLoop_sound (fetch : HistFetch) (pred : Workout → Bool)
    (pageSize : Nat) :
    ∀ fuel page r, referenceSearchLoop fetch pred pageSize page fuel = .ok (some r) →
      pred r = true ∧
      ∃ p pg, page ≤ p ∧ p < page + fuel ∧ fetch p pageSize = some pg ∧
        r ∈ pg.workouts := by
  intro fuel
  induction fuel with
  | zero =>
    intro page r h
    simp [referenceSearchLoop] at h
  | succ n ih =>
    intro page r h
    cases hf : fetch page pageSize with
    | none =>
      rw [referenceSearchLoop_step_fetchError hf] at h
      obtain ⟨hp, p, pg, h1, h2, h3, h4⟩ := ih (page + 1) r h
      exact ⟨hp, p, pg, by omega, by omega, h3, h4⟩
    | some resp =>
      cases hfind : resp.workouts.find? pred with
      | some w =>
        rw [referenceSearchLoop_step_found hf hfind] at h
        simp only [Except.ok.injEq, Option.some.injEq] at h
        subst h
        exact ⟨List.find?_some hfind, page, resp, le_refl _, by omega, hf,
          List.mem_of_find?_eq_some hfind⟩
      | none =>
        by_cases hstop : resp.totalCount ≤ (((page + 1) * pageSize : Nat) : Int)
        · rw [referenceSearchLoop_step_exhausted hf hfind hstop] at h
          simp at h
        · rw [referenceSearchLoop_step_nextPage hf hfind hstop] at h
          obtain ⟨hp, p, pg, h1, h2, h3, h4⟩ := ih (page + 1) r h
          exact ⟨hp, p, pg, by omega, by omega, h3, h4⟩

theorem findWeek1Reference_never_errors (fetch : HistFetch) (workout : Workout) :
    ∃ o, findWeek1Reference fetch workout = .ok o := by
  unfold findWeek1Reference
  cases extractDayFromTitle workout.title with
  | none => exact ⟨none, rfl⟩
  | some d => exact referenceSearchLoop_never_errors fetch _ 10 10 0

theorem findWeek1ReferenceWithFallback_never_errors (fetch : HistFetch)
    (workout : Workout) :
    ∃ o, findWeek1ReferenceWithFallback fetch workout = .ok o := by
  unfold findWeek1ReferenceWithFallback
  obtain ⟨o, ho⟩ := findWeek1Reference_never_errors fetch workout
  rw [ho]
  cases o with
  | some r => exact ⟨some r, rfl⟩
  | none => exact referenceSearchLoop_never_errors fetch _ 10 10 0

/-- C3: at week ≥ 8 the deload context has `nextWeek = 1`; the
reference workout is chosen by the day-matched week-1 search first
(page size 10, at most 10 pages — any found workout is week-1
same-day and lies in one of the first 10 fetched pages), then by the
week-7 same-routine fallback search under the same pagination, and
with neither found (or on fetch errors everywhere) the reference-free
instruction text is produced; the whole search never returns an
error. -/
theorem deload_context_week8_spec (c : DeloadCalculator) (fetch : HistFetch)
    (currentWeekIndex : Nat) (workout : Workout) (h8 : 8 ≤ currentWeekIndex) :
    (createDeloadTransitionContext c fetch currentWeekIndex workout).nextWeekIndex = 1
    ∧ (∃ result, findWeek1ReferenceWithFallback fetch workout = .ok result)
    ∧ (∀ r, findWeek1Reference fetch workout = .ok (some r) →
        findWeek1ReferenceWithFallback fetch workout = .ok (some r))
    ∧ (findWeek1Reference fetch workout = .ok none →
        findWeek1ReferenceWithFallback fetch workout =
          referenceSearchLoop fetch (week7SameRoutine workout) 10 0 10)
    ∧ (∀ r d, extractDayFromTitle workout.title = some d →
        findWeek1Reference fetch workout = .ok (some r) →
        isWeek1SameDayWorkout r d = true ∧
        ∃ p pg, p < 10 ∧ fetch p 10 = some pg ∧ r ∈ pg.workouts)
    ∧ (∀ r, referenceSearchLoop fetch (week7SameRoutine workout) 10 0 10 = .ok (some r) →
        week7SameRoutine workout r = true ∧
        ∃ p pg, p < 10 ∧ fetch p 10 = some pg ∧ r ∈ pg.workouts)
    ∧ (findWeek1ReferenceWithFallback fetch workout = .ok none →
        createDeloadTransitionContext c fetch currentWeekIndex workout =
          ⟨1, "\n\n" ++ generateDeloadInstruction c false, ""⟩)
    ∧ (∀ r, findWeek1ReferenceWithFallback fetch workout = .ok (some r) →
        (createDeloadTransitionContext c fetch currentWeekIndex workout).cycleInstruction =
          "\n\n" ++ generateDeloadInstruction c true) := by
  have hnotlt : ¬ currentWeekIndex < 8 := Nat.not_lt.mpr h8
  refine ⟨?_, findWeek1ReferenceWithFallback_never_errors fetch workout, ?_, ?_, ?_, ?_, ?_, ?_⟩
  · unfold createDeloadTransitionContext
    rw [if_pos h8, if_neg hnotlt]
    cases hF : findWeek1ReferenceWithFallback fetch workout with
    | error e => rfl
    | ok o => cases o <;> rfl
  · intro r hr
    unfold findWeek1ReferenceWithFallback
    rw [hr]
  · intro hr
    unfold findWeek1ReferenceWithFallback
    rw [hr]
  · intro r d hd hr
    unfold findWeek1Reference at hr
    rw [hd] at hr
    obtain ⟨hp, p, pg, h1, h2, h3, h4⟩ :=
      referenceSearchLoop_sound fetch _ 10 10 0 r hr
    exact ⟨hp, p, pg, by omega, h3, h4⟩
  · intro r hr
    obtain ⟨hp, p, pg, h1, h2, h3, h4⟩ :=
      referenceSearchLoop_sound fetch _ 10 10 0 r hr
    exact ⟨hp, p, pg, by omega, h3, h4⟩
  · intro hF
    unfold createDeloadTransitionContext
    rw [if_pos h8, if_neg hnotlt, hF]
  · intro r hF
    unfold createDeloadTransitionContext
    rw [if_pos h8, if_neg hnotlt, hF]

/-- A week-7 workout of routine `r1`, sitting on the only non-failing
history page of the C3 witness oracle. -/
def witnessWeek7Workout : Workout :=
  ⟨"w7", "Week 7", "r1", "", "", "", "", "", []⟩

/-- A week-8 workout (no day token) of routine `r1`. -/
def witnessWeek8Workout : Workout :=
  ⟨"w8", "Week 8", "r1", "", "", "", "", "", []⟩

/-- History oracle with a single page 0 holding only the week-7
workout. -/
def witnessFetch : HistFetch := fun p ps =>
  if p == 0 && ps == 10 then some ⟨[witnessWeek7Workout], 1⟩ else none

/-- C3 witness: at week 8, a current workout with no day token falls
through the week-1 search to the week-7 same-routine fallback, which
finds the week-7 workout; the context carries the with-reference
instruction and `nextWeek = 1`. -/
theorem deload_context_week8_spec_witness :
    (createDeloadTransitionContext defaultDeloadCalculator witnessFetch 8
      witnessWeek8Workout).nextWeekIndex = 1
    ∧ week7SameRoutine witnessWeek8Workout witnessWeek7Workout = true
    ∧ (createDeloadTransitionContext defaultDeloadCalculator witnessFetch 8
        witnessWeek8Workout).cycleInstruction =
      "\n\n" ++ generateDeloadInstruction defaultDeloadCalculator true := by
  have h := deload_context_week8_spec defaultDeloadCalculator witnessFetch 8
    witnessWeek8Workout (by decide)
  refine ⟨h.1, ?_, ?_⟩
  · exact (h.2.2.2.2.2.1 witnessWeek7Workout (by rfl)).1
  · exact h.2.2.2.2.2.2.2 witnessWeek7Workout (by rfl)

/-! ## C4: LLM reply parsing -/

theorem mapMOpt_length {α β : Type} (f : α → Option β) :
    ∀ l l2, mapMOpt f l = some l2 → l2.length = l.length := by
  intro l
  induction l with
  | nil =>
    intro l2 h
    simp only [mapMOpt, Option.some.injEq] at h
    subst h
    rfl
  | cons a t ih =>
    intro l2 h
    cases hf : f a with
    | none => simp [mapMOpt, hf] at h
    | some b =>
      cases hm : mapMOpt f t with
      | none => simp [mapMOpt, hf, hm] at h
      | some bs =>
        simp only [mapMOpt, hf, hm, Option.some.injEq] at h
        subst h
        simp [ih bs hm]

/-- C4: `parse_gemini_response` fails exactly when the extracted text
does not parse as JSON or the JSON lacks a structurally valid
`updated_exercises` array; on success the result keeps one exercise
per input array element, a missing or non-`u64` `week_number` defaults
to 1, and a missing or non-string `routine_title` defaults to
`"Updated Routine"` — those two fields are never fatal. -/
theorem parse_gemini_response_spec (p : JsonParse) (response : String) :
    (parseGeminiResponse p response = none ↔
      p (extractJsonFromResponse response) = none ∨
      ∃ j, p (extractJsonFromResponse response) = some j ∧
        extractExercisesFromJson j = none)
    ∧ (∀ j elems r, p (extractJsonFromResponse response) = some j →
        jGet j "updated_exercises" = some (Json.arr elems) →
        parseGeminiResponse p response = some r →
        r.updatedExercises.length = elems.length)
    ∧ (∀ j r, p (extractJsonFromResponse response) = some j →
        parseGeminiResponse p response = some r →
        (jGet j "week_number" = none → r.weekNumber = 1)
        ∧ (∀ v, jGet j "week_number" = some v → asU64 v = none → r.weekNumber = 1)
        ∧ (jGet j "routine_title" = none → r.routineTitle = "Updated Routine")
        ∧ (∀ v, jGet j "routine_title" = some v → asStr v = none →
            r.routineTitle = "Updated Routine")) := by
  refine ⟨?_, ?_, ?_⟩
  · unfold parseGeminiResponse
    cases hp : p (extractJsonFromResponse response) with
    | none => simp
    | some j =>
      cases hex : extractExercisesFromJson j with
      | none => simp [hex]
      | some exs => simp [hex]
  · intro j elems r hp hj hr
    unfold parseGeminiResponse at hr
    simp only [hp] at hr
    cases hex : extractExercisesFromJson j with
    | none => rw [hex] at hr; simp at hr
    | some exs =>
      rw [hex] at hr
      simp only [Option.some.injEq] at hr
      subst hr
      unfold extractExercisesFromJson at hex
      rw [hj] at hex
      simpa using mapMOpt_length decodeExercise elems exs (by simpa using hex)
  · intro j r hp hr
    unfold parseGeminiResponse at hr
    simp only [hp] at hr
    cases hex : extractExercisesFromJson j with
    | none => rw [hex] at hr; simp at hr
    | some exs =>
      rw [hex] at hr
      simp only [Option.some.injEq] at hr
      subst hr
      refine ⟨?_, ?_, ?_, ?_⟩
      · intro hwk
        simp [extractWeekNumberFromJson, hwk]
      · intro v hwk hu
        simp [extractWeekNumberFromJson, hwk, hu]
      · intro ht
        simp [extractRoutineTitleFromJson, ht]
      · intro v ht hs
        simp [extractRoutineTitleFromJson, ht, hs]

/-- The valid exercise object of the C4 witness reply. -/
def witnessExerciseJson : Json :=
  .obj [("index", .intNum 0), ("title", .str "Bench"),
    ("exercise_template_id", .str "T1"), ("sets", .arr [])]

/-- What `witnessExerciseJson` deserializes to. -/
def witnessExercise : Exercise :=
  ⟨0, "Bench", none, "T1", none, none, []⟩

/-- The C4 witness reply value: a valid `updated_exercises` array and
no `week_number`/`routine_title` keys. -/
def witnessJson : Json :=
  .obj [("updated_exercises", .arr [witnessExerciseJson])]

/-- The C4 witness `serde_json::from_str` oracle: the text `"x"` is the
witness reply, everything else is a syntax error. -/
def witnessJsonParse : JsonParse := fun s =>
  if s == "x" then some witnessJson else none

/-- The parse result of the C4 witness reply. -/
def witnessParsedResponse : OverloadResponse :=
  ⟨[witnessExercise], 1, "Updated Routine"⟩

/-- C4 witness: the witness reply parses with one exercise and both
defaults applied; a non-JSON reply fails. -/
theorem parse_gemini_response_spec_witness :
    parseGeminiResponse witnessJsonParse "y" = none
    ∧ (parseGeminiResponse witnessJsonParse "x").map
        (fun r => r.updatedExercises.length) = some 1
    ∧ (parseGeminiResponse witnessJsonParse "x").map
        OverloadResponse.weekNumber = some 1
    ∧ (parseGeminiResponse witnessJsonParse "x").map
        OverloadResponse.routineTitle = some "Updated Routine" := by
  have hres : parseGeminiResponse witnessJsonParse "x" = some witnessParsedResponse := rfl
  have h := parse_gemini_response_spec witnessJsonParse "x"
  have hlen := h.2.1 witnessJson [witnessExerciseJson] witnessParsedResponse rfl rfl hres
  have hdef := h.2.2 witnessJson witnessParsedResponse rfl hres
  refine ⟨(parse_gemini_response_spec witnessJsonParse "y").1.mpr (Or.inl rfl), ?_, ?_, ?_⟩
  · rw [hres]
    simpa using hlen
  · rw [hres]
    simpa using hdef.1 rfl
  · rw [hres]
    simpa using hdef.2.2.1 rfl

/-! ## C8: suggestion map -/

theorem lookup_filter_ne (k tid : String) (h : tid ≠ k) :
    ∀ m : List (String × String),
      ((m.filter fun kv => kv.1 != k).lookup tid) = m.lookup tid := by
  intro m
  induction m with
  | nil => rfl
  | cons a rest ih =>
    obtain ⟨x, y⟩ := a
    by_cases hx : x = k
    · subst hx
      have hne : (tid == x) = false := by simpa using h
      simp only [List.filter_cons, bne_self_eq_false, Bool.false_eq_true, if_false]
      rw [ih, List.lookup, hne]
    · have hbne : (x != k) = true := by simpa using hx
      simp only [List.filter_cons, hbne, if_true]
      rw [List.lookup, List.lookup]
      cases tid == x with
      | true => rfl
      | false => exact ih

theorem lookup_mapInsert (m : List (String × String)) (k v tid : String) :
    (mapInsert m k v).lookup tid = if tid = k then some v else m.lookup tid := by
  unfold mapInsert
  by_cases htid : tid = k
  · subst htid
    simp [List.lookup]
  · have hne : (tid == k) = false := by simpa using htid
    rw [List.lookup, hne]
    simp only [htid, if_false]
    exact lookup_filter_ne k tid htid m

theorem workingSets_eq_nil_of_all_warmup (ex : Exercise)
    (h : ∀ s ∈ ex.sets, s.setType = "warmup") : workingSets ex = [] := by
  unfold workingSets
  rw [List.filter_eq_nil_iff]
  intro s hs
  rw [h s hs]
  decide

theorem exerciseSuggestionLines_of_all_warmup (ex : Exercise)
    (h : ∀ s ∈ ex.sets, s.setType = "warmup") :
    exerciseSuggestionLines ex = .ok [] := by
  unfold exerciseSuggestionLines
  rw [workingSets_eq_nil_of_all_warmup ex h]
  rfl

theorem buildSuggestionsAux_lookup_none (tid : String) :
    ∀ (exs : List Exercise) (m m2 : List (String × String)),
      (∀ ex ∈ exs, ex.exerciseTemplateId = tid → ∀ s ∈ ex.sets, s.setType = "warmup") →
      m.lookup tid = none →
      buildSuggestionsAux exs m = .ok m2 →
      m2.lookup tid = none := by
  intro exs
  induction exs with
  | nil =>
    intro m m2 hall hm h
    simp only [buildSuggestionsAux, Except.ok.injEq] at h
    subst h
    exact hm
  | cons ex rest ih =>
    intro m m2 hall hm h
    cases hl : exerciseSuggestionLines ex with
    | error e => simp [buildSuggestionsAux, hl] at h
    | ok lines =>
      simp only [buildSuggestionsAux, hl] at h
      by_cases hemp : lines.isEmpty
      · rw [if_pos hemp] at h
        exact ih m m2 (fun e he => hall e (List.mem_cons_of_mem _ he)) hm h
      · rw [if_neg hemp] at h
        by_cases hid : ex.exerciseTemplateId = tid
        · exfalso
          have hw := hall ex (List.mem_cons_self _ _) hid
          have hnil := exerciseSuggestionLines_of_all_warmup ex hw
          rw [hl] at hnil
          injection hnil with h2
          subst h2
          simp at hemp
        · refine ih _ m2 (fun e he => hall e (List.mem_cons_of_mem _ he)) ?_ h
          rw [lookup_mapInsert]
          rw [if_neg fun hh => hid hh.symm]
          exact hm

/-- C8: the suggestion map has no entry keyed by a template id whose
exercises all consist solely of warmup sets; for an exercise with
working sets the lines are `"<N> sets"`, then the optional RPE line,
then one line per working set; a working set of 5 reps at 80.0 kg
renders as `"80x5"`, and of 5 reps with no weight as `"5 reps"`. -/
theorem build_suggestions_spec :
    (∀ (resp : OverloadResponse) (m : List (String × String)) (tid : String),
        buildExerciseSuggestions resp = .ok m →
        (∀ ex ∈ resp.updatedExercises, ex.exerciseTemplateId = tid →
          ∀ s ∈ ex.sets, s.setType = "warmup") →
        m.lookup tid = none)
    ∧ (∀ ex lines, exerciseSuggestionLines ex = .ok lines →
        workingSets ex ≠ [] →
        ∃ rpeLines, lines =
          (toString (workingSets ex).length ++ " sets") :: rpeLines
            ++ (workingSets ex).map setSuggestionLine)
    ∧ (∀ idx dm ds rpe cm,
        setSuggestionLine ⟨idx, "normal", some 80, some 5, dm, ds, rpe, cm⟩ = "80x5")
    ∧ (∀ idx dm ds rpe cm,
        setSuggestionLine ⟨idx, "normal", none, some 5, dm, ds, rpe, cm⟩ = "5 reps") := by
  refine ⟨?_, ?_, ?_, ?_⟩
  · intro resp m tid h hall
    exact buildSuggestionsAux_lookup_none tid resp.updatedExercises [] m hall rfl h
  · intro ex lines hl hne
    have hempty : (workingSets ex).isEmpty = false := by
      cases hws : workingSets ex with
      | nil => exact absurd hws hne
      | cons a t => rfl
    simp only [exerciseSuggestionLines, hempty, Bool.false_eq_true, if_false] at hl
    cases hn : ex.notes with
    | none =>
      simp only [hn] at hl
      injection hl with h2
      exact ⟨[], h2.symm⟩
    | some notes =>
      simp only [hn] at hl
      cases hrpe : extractRpeFromNotes notes.toList with
      | error e => simp only [hrpe] at hl; cases hl
      | ok rpeOpt =>
        simp only [hrpe] at hl
        cases rpeOpt with
        | none =>
          injection hl with h2
          exact ⟨[], h2.symm⟩
        | some rpe =>
          injection hl with h2
          exact ⟨["RPE " ++ rpe], h2.symm⟩
  · intro idx dm ds rpe cm
    rfl
  · intro idx dm ds rpe cm
    rfl

/-- A witness exercise whose only set is a warmup. -/
def witnessWarmupExercise : Exercise :=
  ⟨0, "Row", none, "TA", none, none,
    [⟨0, "warmup", some 40, some 10, none, none, none, none⟩]⟩

/-- A witness exercise with one warmup set and two working sets. -/
def witnessWorkExercise : Exercise :=
  ⟨1, "Bench", none, "TB", none, none,
    [⟨0, "warmup", some 20, some 10, none, none, none, none⟩,
     ⟨1, "normal", some 80, some 5, none, none, none, none⟩,
     ⟨2, "normal", none, some 5, none, none, none, none⟩]⟩

/-- The C8 witness response. -/
def witnessOverloadResponse : OverloadResponse :=
  ⟨[witnessWarmupExercise, witnessWorkExercise], 2, "Day 1 - Week 3"⟩

/-- C8 witness: building suggestions for the witness response yields no
entry for the all-warmup exercise and the literal lines for the
working sets. -/
theorem build_suggestions_spec_witness :
    ([("TB", "2 sets\n80x5\n5 reps")] : List (String × String)).lookup "TA" = none
    ∧ setSuggestionLine ⟨1, "normal", some 80, some 5, none, none, none, none⟩ = "80x5"
    ∧ setSuggestionLine ⟨2, "normal", none, some 5, none, none, none, none⟩ = "5 reps" := by
  have hbuild : buildExerciseSuggestions witnessOverloadResponse =
      .ok [("TB", "2 sets\n80x5\n5 reps")] := rfl
  refine ⟨build_suggestions_spec.1 witnessOverloadResponse _ "TA" hbuild ?_,
    build_suggestions_spec.2.2.1 1 none none none none,
    build_suggestions_spec.2.2.2 2 none none none none⟩
  intro ex hex hid s hs
  fin_cases hex
  · simp only [witnessWarmupExercise, List.mem_singleton] at hs
    subst hs
    rfl
  · simp [witnessWorkExercise] at hid

/-! ## C7: routine-update payload -/

/-- C7 counterexample: a routine exercise with pre-existing notes and
no suggestion for its template id still carries those notes in the
update payload — the payload does not include `notes` *only* when a
suggestion exists. -/
theorem update_notes_counterexample :
    buildUpdatedExercises [⟨"T1", none, none, some "keep", []⟩] [] =
      [⟨"T1", none, none, some "keep", []⟩]
    ∧ ([] : List (String × String)).lookup "T1" = none :=
  ⟨rfl, rfl⟩

/-- C7 amended: every serialized update set omits the `rpe` key
entirely, and each payload exercise's `notes` equals the suggestion for
its template id when one exists, and otherwise retains the routine
exercise's pre-existing notes (which may be present). -/
theorem update_payload_rpe_and_notes (s : ExerciseSetForUpdate)
    (exs : List ExerciseForUpdate) (suggestions : List (String × String)) :
    "rpe" ∉ (serializeSetForUpdate s).map Prod.fst
    ∧ List.Forall₂ (fun (ex out : ExerciseForUpdate) =>
        out.exerciseTemplateId = ex.exerciseTemplateId
        ∧ out.sets = ex.sets
        ∧ out.notes = (match suggestions.lookup ex.exerciseTemplateId with
            | some newNotes => some newNotes
            | none => ex.notes))
      exs (buildUpdatedExercises exs suggestions) := by
  constructor
  · cases hr : s.repRange with
    | none =>
      simp only [serializeSetForUpdate, hr, List.append_nil, List.map_cons,
        List.map_nil]
      decide
    | some r =>
      simp only [serializeSetForUpdate, hr, List.map_append, List.map_cons,
        List.map_nil]
      decide
  · induction exs with
    | nil => exact List.Forall₂.nil
    | cons ex rest ih =>
      unfold buildUpdatedExercises
      simp only [List.map_cons]
      refine List.Forall₂.cons ?_ ih
      cases hlook : suggestions.lookup ex.exerciseTemplateId <;> simp [hlook]

/-! ## C9: RPE extraction slice safety -/

/-- The notes value on which the extraction panics: three `İ` (U+0130)
characters followed by `rpe`.  Lowercasing expands each `İ` to two
characters (three bytes), so the `"rpe"` byte offset in the lowercased
copy exceeds every valid offset of the original. -/
def panicNotes : List Char :=
  [Char.ofNat 304, Char.ofNat 304, Char.ofNat 304, 'r', 'p', 'e']

/-- C9: on `panicNotes` the byte offset of `"rpe"` found in the
lowercased copy is 9, the original string is 9 bytes long, and the
slice start 9 + 3 = 12 is not a valid index — the Rust code panics
(byte index out of bounds), refuting the claim that the computed index
is always a valid boundary; on ASCII notes the extraction succeeds. -/
theorem extract_rpe_panics_on_unicode :
    extractRpeFromNotes panicNotes = .error ()
    ∧ findSubIdx [114, 112, 101]
        ((panicNotes.flatMap rustCharToLowercase).flatMap utf8Bytes) = some 9
    ∧ (panicNotes.flatMap utf8Bytes).length = 9
    ∧ ((byteBoundaries panicNotes).contains 12) = false
    ∧ extractRpeFromNotes ("Bench rpe 8".toList) = .ok (some "8") :=
  ⟨rfl, rfl, rfl, rfl, rfl⟩

/-! ## C1: processed-id set and terminal states -/

theorem mem_setInsert (s : List String) (x y : String) :
    x ∈ setInsert s y ↔ x ∈ s ∨ x = y := by
  unfold setInsert
  by_cases hy : y ∈ s
  · rw [if_pos hy]
    constructor
    · exact Or.inl
    · rintro (h | rfl)
      · exact h
      · exact hy
  · rw [if_neg hy]
    rw [List.mem_cons]
    tauto

/-- C1: an event id is inserted into the processed set exactly when
its processing attempt reached a terminal state — the no-routine
short-circuit or a completed run (with the write-back succeeding or
failing alike); a transient failure (workout fetch, routine fetch, or
the LLM generation/parse step) leaves the set unchanged, and no other
id is ever touched. -/
theorem processed_iff_terminal (env : OverloadEnv) (processed : List String)
    (workoutId x : String) :
    x ∈ (processSingleWorkout env processed workoutId).1 ↔
      x ∈ processed ∨
        (x = workoutId ∧
          ((processSingleWorkout env processed workoutId).2 = .noRoutine ∨
            ∃ b, (processSingleWorkout env processed workoutId).2 = .completed b)) := by
  simp only [processSingleWorkout]
  cases hw : env.getWorkout workoutId with
  | none => simp
  | some workout =>
    dsimp only
    by_cases hr : workout.routineId = "" ∨ workout.routineId = "null"
    · rw [if_pos hr]
      simp [mem_setInsert]
    · rw [if_neg hr]
      cases hg : env.getRoutine workout.routineId with
      | none => simp
      | some routine =>
        dsimp only
        cases hp : env.processWorkoutCompletion workout routine with
        | none => simp
        | some response =>
          dsimp only
          cases hb : buildExerciseSuggestions response with
          | error e => simp
          | ok suggestions =>
            dsimp only
            simp [mem_setInsert]

/-! ## C2: webhook authentication and acknowledgment -/

/-- C2: `handle_workout_completion` responds 401 exactly when the
`Authorization` header is missing, undecodable, not `Bearer `-prefixed
or carries the wrong token; every authenticated request is answered
200, and the status does not depend on the background processing
environment (downstream success or failure). -/
theorem webhook_auth_and_ack (authHeader : Option (Option String))
    (webhookToken : String) (env : OverloadEnv) (processed : List String)
    (workoutId : String) :
    ((handleWorkoutCompletion authHeader webhookToken env processed workoutId).1 = 401 ↔
      authHeader = none ∨ authHeader = some none ∨
        ∃ s, authHeader = some (some s) ∧
          (¬ s.startsWith "Bearer " ∨ s.drop 7 ≠ webhookToken))
    ∧ ((handleWorkoutCompletion authHeader webhookToken env processed workoutId).1 = 200 ↔
        ∃ s, authHeader = some (some s) ∧ s.startsWith "Bearer " ∧
          s.drop 7 = webhookToken)
    ∧ (∀ (env2 : OverloadEnv) (processed2 : List String) (workoutId2 : String),
        (handleWorkoutCompletion authHeader webhookToken env processed workoutId).1 =
          (handleWorkoutCompletion authHeader webhookToken env2 processed2 workoutId2).1) := by
  cases authHeader with
  | none => simp [handleWorkoutCompletion, authenticateRequest]
  | some inner =>
    cases inner with
    | none => simp [handleWorkoutCompletion, authenticateRequest]
    | some s =>
      by_cases hb : s.startsWith "Bearer "
      · by_cases ht : s.drop 7 = webhookToken
        · simp [handleWorkoutCompletion, authenticateRequest, hb, ht]
        · simp [handleWorkoutCompletion, authenticateRequest, hb, ht]
      · simp [handleWorkoutCompletion, authenticateRequest, hb]

/-! ## C10: one history request per reconciliation pass -/

/-- C10: each `run_sync` pass issues exactly one workout-history
request, with page 1 and page size 10; the workouts considered before
the 24-hour filter and the processed-id skip are exactly that single
page's contents (hence at most 10 when the server honors the page
size); the deload reference search, by contrast, requests pages
starting from page 0. -/
theorem run_sync_single_history_request (env : SyncEnv) (processed : List String) :
    (runSync env processed).historyCalls = [(1, 10)]
    ∧ (runSync env processed).considered =
        (match env.getWorkouts 1 10 with
          | some resp => resp.workouts
          | none => [])
    ∧ ((match env.getWorkouts 1 10 with
          | some resp => resp.workouts
          | none => []).length ≤ 10 →
        (runSync env processed).considered.length ≤ 10)
    ∧ (∀ (fetch : HistFetch) (pred : Workout → Bool),
        (referenceSearchCalls fetch pred 10 0 10).head? = some 0) := by
  have hcons : (runSync env processed).considered =
      (match env.getWorkouts 1 10 with
        | some resp => resp.workouts
        | none => []) := by
    unfold runSync
    cases env.getWorkouts 1 10 <;> rfl
  refine ⟨?_, hcons, ?_, ?_⟩
  · unfold runSync
    cases env.getWorkouts 1 10 <;> rfl
  · intro h
    rw [hcons]
    exact h
  · intro fetch pred
    rfl

/-- The C10 witness environment: a single history page at (1, 10) with
one workout; every other collaborator fails. -/
def syncWitnessEnv : SyncEnv :=
  ⟨⟨fun _ => none, fun _ => none, fun _ _ => none, fun _ _ => false⟩,
    fun p ps => if p == 1 && ps == 10 then some ⟨[witnessWeek7Workout], 1⟩ else none,
    fun _ => none, 0⟩

/-- C10 witness: the witness pass issues the single (1, 10) request
and considers its one workout (≤ 10). -/
theorem run_sync_single_history_request_witness :
    (runSync syncWitnessEnv []).historyCalls = [(1, 10)]
    ∧ (runSync syncWitnessEnv []).considered.length ≤ 10 := by
  have h := run_sync_single_history_request syncWitnessEnv []
  exact ⟨h.1, h.2.2.1 (by decide)⟩

end HevyPipeline
